import Mathlib

/-!
Verification development for the `audito-maldito` sshd/auditd telemetry daemon.

The first part embeds the sshd journal consumer
(`internal/journald/consumer/consumer.go`): the four anchored regular
expressions, the per-shape handlers, the dispatcher `processEntry` and the
consumer loop `journaldConsumer`.  The Go `regexp` patterns used by the
consumer are all of a restricted shape - a sequence of literals and
one-or-more character-class repetitions - so they are embedded as token
lists interpreted by a leftmost, greedy, backtracking matcher, which
coincides with Go (RE2) leftmost-first submatch semantics on this class of
patterns.  Strings are modelled as `List Char` (the journal lines the
claims concern are ASCII, where Go byte indexing and character indexing
agree).

The second part embeds the auditd line loop and the session filter of
`internal/auditd/gen-extra-map/main.go`, and a correlator model for the
ordering-equivalence claim.
-/

set_option maxRecDepth 8000

/-- Go regexp character class `\w` = `[0-9A-Za-z_]` (RE2 default, ASCII). -/
def isWordChar (c : Char) : Bool := c.isAlphanum || c == '_'

/-- Go regexp class `\s` = `[\t\n\f\r ]`. -/
def isSpaceGo (c : Char) : Bool :=
  c == ' ' || c == '\t' || c == '\n' || c == '\x0c' || c == '\r'

/-- Go regexp class `\S` (complement of `\s`). -/
def isNonSpaceGo (c : Char) : Bool := !(isSpaceGo c)

/-- The class `[\w -]` of the `Alg` capture group of `loginRE`:
word characters, the space and the dash. -/
def isAlgChar (c : Char) : Bool := isWordChar c || c == ' ' || c == '-'

/-- Go regexp `.`: any character except newline. -/
def isDotChar (c : Char) : Bool := !(c == '\n')

/-- One token of a restricted regular expression: either a literal
character sequence, or a one-or-more greedy repetition `C+` of a
character class, optionally a capture group. -/
inductive Tok where
  | lit : List Char → Tok
  | cls : (Char → Bool) → Bool → Tok

/-- Length of the maximal leading run of characters satisfying `p`. -/
def maxMunch (p : Char → Bool) : List Char → Nat
  | [] => 0
  | c :: cs => if p c then maxMunch p cs + 1 else 0

/-- Backtracking loop for a `C+` token: try consuming `k` characters,
from the greedy maximum down to one, and keep the first split for which
the rest of the pattern (`f`) matches.  This realizes RE2's preference
order (greedy quantifiers prefer longer) on this class of patterns. -/
def trySplits (f : Nat → Option (List (List Char) × Nat)) (capGrab : Bool)
    (cs : List Char) : Nat → Option (List (List Char) × Nat)
  | 0 => none
  | k + 1 =>
    match f (k + 1) with
    | some (caps, n) =>
        some ((if capGrab then [cs.take (k + 1)] else []) ++ caps, (k + 1) + n)
    | none => trySplits f capGrab cs k

/-- Match a token sequence at the head of `cs`; returns the capture-group
texts (in group order) and the number of characters consumed by the whole
match, following the preference order of Go regexp on this pattern class. -/
def matchToks : List Tok → List Char → Option (List (List Char) × Nat)
  | [], _ => some ([], 0)
  | .lit s :: ts, cs =>
    if s.isPrefixOf cs then
      match matchToks ts (cs.drop s.length) with
      | some (caps, n) => some (caps, s.length + n)
      | none => none
    else none
  | .cls p capGrab :: ts, cs =>
    trySplits (fun j => matchToks ts (cs.drop j)) capGrab cs (maxMunch p cs)

/-- Leftmost search, as `regexp.FindStringSubmatch`: try a match starting
at each position, earliest first.  Returns captures and the length of
`matches[0]` (the matched text). -/
def findSub (ts : List Tok) : List Char → Option (List (List Char) × Nat)
  | [] => matchToks ts []
  | c :: cs =>
    match matchToks ts (c :: cs) with
    | some r => some r
    | none => findSub ts cs

/-- `loginRE`: `Accepted publickey for (?P<Username>\w+) from (?P<Source>\S+)
port (?P<Port>\d+) ssh[[:alnum:]]+: (?P<Alg>[\w -]+):(?P<SSHKeySum>\S+)`.
Captures, in order: Username, Source, Port, Alg, SSHKeySum. -/
def loginToks : List Tok :=
  [.lit "Accepted publickey for ".toList, .cls isWordChar true,
   .lit " from ".toList, .cls isNonSpaceGo true,
   .lit " port ".toList, .cls Char.isDigit true,
   .lit " ssh".toList, .cls Char.isAlphanum false,
   .lit ": ".toList, .cls isAlgChar true,
   .lit ":".toList, .cls isNonSpaceGo true]

/-- `certIDRE`: `ID (?P<UserID>\S+)\s+\(serial (?P<Serial>\d+)\)\s+(?P<CA>.+)`.
Captures, in order: UserID, Serial, CA. -/
def certIDToks : List Tok :=
  [.lit "ID ".toList, .cls isNonSpaceGo true,
   .cls isSpaceGo false, .lit "(serial ".toList, .cls Char.isDigit true,
   .lit ")".toList, .cls isSpaceGo false, .cls isDotChar true]

/-- `notInAllowUsersRE`: `User (?P<Username>\w+) from (?P<Source>\S+) not
allowed because not listed in AllowUsers`. Captures: Username, Source. -/
def notInAllowUsersToks : List Tok :=
  [.lit "User ".toList, .cls isWordChar true,
   .lit " from ".toList, .cls isNonSpaceGo true,
   .lit " not allowed because not listed in AllowUsers".toList]

/-- `invalidUserRE`: `Invalid user (?P<Username>\w+) from (?P<Source>\S+)
port (?P<Port>\d+)`. Captures: Username, Source, Port. -/
def invalidUserToks : List Tok :=
  [.lit "Invalid user ".toList, .cls isWordChar true,
   .lit " from ".toList, .cls isNonSpaceGo true,
   .lit " port ".toList, .cls Char.isDigit true]

/-- Modelled from the spec: `common.UnknownUser` lives in the
`internal/common` package, which is not under src; the spec fixes the
sentinel value `"unknown"`. -/
def UnknownUser : String := "unknown"

/-- Modelled from the spec: `common.ActionLoginIdentifier` is not under
src; spec section 6 gives event type `"UserLogin"` for login events. -/
def ActionLoginIdentifier : String := "UserLogin"

/-- Modelled from the spec: `auditevent.OutcomeSucceeded` (external
library); spec section 6: outcome `"succeeded"`. -/
def OutcomeSucceeded : String := "succeeded"

/-- Modelled from the spec: `auditevent.OutcomeFailed` (external
library); spec section 6: outcome `"failed"`. -/
def OutcomeFailed : String := "failed"

/-- `auditevent.EventSource`; `Extra` is used with the single key
`"port"`, modelled as an association list. -/
structure EventSource where
  type : String
  value : String
  extra : List (String × String)
deriving DecidableEq

/-- `auditevent.AuditEvent` as constructed by the consumer:
`NewAuditEvent(type, source, outcome, subjects, component)`, then
`WithTarget`, `LoggedAt`, and optionally `WithData`.  The extra-data JSON
object is modelled as an association list in the key order produced by
`json.Marshal` (ascending keys); `json.Marshal` of a `map[string]string`
cannot fail, so the error branches of `extraDataWithoutCA`/`extraDataWithCA`
are dead and the data is modelled directly. -/
structure AuditEvent where
  type : String
  source : EventSource
  outcome : String
  subjects : List (String × String)
  component : String
  target : List (String × String)
  loggedAt : Nat
  data : Option (List (String × String))
deriving DecidableEq

/-- Go map update `m[k] = v`, with first-match lookup semantics. -/
def mapSet (m : List (String × String)) (k v : String) : List (String × String) :=
  (k, v) :: m

/-- `extraDataWithoutCA`: the JSON object `{"Alg": alg, "SSHKeySum": keySum}`
(keys in `json.Marshal` order). -/
def extraDataWithoutCA (alg keySum : String) : List (String × String) :=
  [("Alg", alg), ("SSHKeySum", keySum)]

/-- `extraDataWithCA`: the JSON object with keys `Alg`, `CA`, `SSHKeySum`,
`Serial` (ascending, as `json.Marshal` orders map keys). -/
def extraDataWithCA (alg keySum certSerial caData : String) : List (String × String) :=
  [("Alg", alg), ("CA", caData), ("SSHKeySum", keySum), ("Serial", certSerial)]

/-- `addEventInfoForUnknownUser`: set `Subjects["userID"]` to the unknown
sentinel and attach the algorithm/key-sum extra data. -/
def addEventInfoForUnknownUser (evt : AuditEvent) (alg keySum : String) : AuditEvent :=
  { evt with
    subjects := mapSet evt.subjects "userID" UnknownUser,
    data := some (extraDataWithoutCA alg keySum) }

/-- The event sink (`auditevent.EventWriter.Write`), abstracted by its
observable behaviour on each event: `none` = write accepted,
`some e` = write failed with error text `e`. -/
def Sink : Type := AuditEvent → Option String

/-- A sink whose writes always succeed. -/
def okSink : Sink := fun _ => none

/-- A sink whose writes always fail with message `msg`. -/
def failSink (msg : String) : Sink := fun _ => some msg

/-- The event the consumer emits for the line `Certificate invalid:
expired` with node name `node`, machine id `mid`, timestamp 7 and pid
`99`; used to instantiate field-invariant statements at a concrete
input. -/
def certExpiredEvt : AuditEvent :=
  { type := ActionLoginIdentifier
    source := { type := "IP", value := "unknown", extra := [("port", "unknown")] }
    outcome := OutcomeFailed
    subjects := [("loggedAs", "unknown"), ("userID", "unknown"), ("pid", "99")]
    component := "sshd"
    target := [("host", "node"), ("machine-id", "mid")]
    loggedAt := 7
    data := some [("error", "certificate invalid"), ("reason", "expired")] }

/-- An adversarial Accepted-publickey line: the leftmost `loginRE` match
is the final 48 characters (ending at the end of the line), while the
text at offset 49 - where the handler slices using the match length, not
the match end - happens to match `certIDRE`. -/
def advPublickeyLine : List Char :=
  ("Accepted publickey zzzzzzzzzzzzzzzzzzzzzzzzzzzzzzID u (serial 1) c "
    ++ "Accepted publickey for a from b port 9 ssh2: R:k").toList

/-- A call `w.Write(evt)` as the handlers perform it: on failure the
handler returns the wrapped error, on success the event has been emitted. -/
def writeEvt (w : Sink) (evt : AuditEvent) : Except String (Option AuditEvent) :=
  match w evt with
  | some e => .error ("journaldConsumer: Failed to write event: " ++ e)
  | none => .ok (some evt)

/-- `processAcceptPublicKeyEntry`.  Capture indices into `loginToks`:
0 Username, 1 Source, 2 Port, 3 Alg, 4 SSHKeySum; into `certIDToks`:
0 UserID, 1 Serial, 2 CA.  `.ok none` models the log-and-return-nil
paths, `.ok (some evt)` a successful write of `evt`, `.error` a failed
write. -/
def processAcceptPublicKeyEntry (logentry : List Char) (nodename mid : String)
    (when : Nat) (pid : String) (w : Sink) : Except String (Option AuditEvent) :=
  match findSub loginToks logentry with
  | none => .ok none
  | some (caps, mlen) =>
    let evt : AuditEvent :=
      { type := ActionLoginIdentifier
        source :=
          { type := "IP"
            value := String.mk (caps.getD 1 [])
            extra := [("port", String.mk (caps.getD 2 []))] }
        outcome := OutcomeSucceeded
        subjects := [("loggedAs", String.mk (caps.getD 0 [])), ("pid", pid)]
        component := "sshd"
        target := [("host", nodename), ("machine-id", mid)]
        loggedAt := when
        data := none }
    if logentry.length = mlen then
      writeEvt w (addEventInfoForUnknownUser evt
        (String.mk (caps.getD 3 [])) (String.mk (caps.getD 4 [])))
    else
      match findSub certIDToks (logentry.drop (mlen + 1)) with
      | none =>
        writeEvt w (addEventInfoForUnknownUser evt
          (String.mk (caps.getD 3 [])) (String.mk (caps.getD 4 [])))
      | some (idCaps, _) =>
        writeEvt w
          { evt with
            subjects := mapSet evt.subjects "userID" (String.mk (idCaps.getD 0 []))
            data := some (extraDataWithCA
              (String.mk (caps.getD 3 [])) (String.mk (caps.getD 4 []))
              (String.mk (idCaps.getD 1 [])) (String.mk (idCaps.getD 2 []))) }

/-- `getCertificateInvalidReason`: drop the 21-character text
`Certificate invalid: ` (anchor plus one space); if the line is no longer
than that, the reason is `"unknown reason"`. -/
def getCertificateInvalidReason (logentry : List Char) : String :=
  let pfxLen : Nat := "Certificate invalid: ".toList.length
  if logentry.length ≤ pfxLen then "unknown reason"
  else String.mk (logentry.drop pfxLen)

/-- `extraDataForInvalidCert`: JSON object `{"error": "certificate invalid",
"reason": reason}` (keys already in `json.Marshal` order). -/
def extraDataForInvalidCert (reason : String) : List (String × String) :=
  [("error", "certificate invalid"), ("reason", reason)]

/-- `processCertificateInvalidEntry`. -/
def processCertificateInvalidEntry (logentry : List Char) (nodename mid : String)
    (when : Nat) (pid : String) (w : Sink) : Except String (Option AuditEvent) :=
  let reason := getCertificateInvalidReason logentry
  writeEvt w
    { type := ActionLoginIdentifier
      source := { type := "IP", value := "unknown", extra := [("port", "unknown")] }
      outcome := OutcomeFailed
      subjects := [("loggedAs", UnknownUser), ("userID", UnknownUser), ("pid", pid)]
      component := "sshd"
      target := [("host", nodename), ("machine-id", mid)]
      loggedAt := when
      data := some (extraDataForInvalidCert reason) }

/-- `processNotInAllowUsersEntry`.  This event source carries no
`Extra` map (no port). -/
def processNotInAllowUsersEntry (logentry : List Char) (nodename mid : String)
    (when : Nat) (pid : String) (w : Sink) : Except String (Option AuditEvent) :=
  match findSub notInAllowUsersToks logentry with
  | none => .ok none
  | some (caps, _) =>
    writeEvt w
      { type := ActionLoginIdentifier
        source := { type := "IP", value := String.mk (caps.getD 1 []), extra := [] }
        outcome := OutcomeFailed
        subjects := [("loggedAs", String.mk (caps.getD 0 [])),
                     ("userID", UnknownUser), ("pid", pid)]
        component := "sshd"
        target := [("host", nodename), ("machine-id", mid)]
        loggedAt := when
        data := none }

/-- `processInvalidUserEntry`. -/
def processInvalidUserEntry (logentry : List Char) (nodename mid : String)
    (when : Nat) (pid : String) (w : Sink) : Except String (Option AuditEvent) :=
  match findSub invalidUserToks logentry with
  | none => .ok none
  | some (caps, _) =>
    writeEvt w
      { type := ActionLoginIdentifier
        source :=
          { type := "IP"
            value := String.mk (caps.getD 1 [])
            extra := [("port", String.mk (caps.getD 2 []))] }
        outcome := OutcomeFailed
        subjects := [("loggedAs", String.mk (caps.getD 0 [])),
                     ("userID", UnknownUser), ("pid", pid)]
        component := "sshd"
        target := [("host", nodename), ("machine-id", mid)]
        loggedAt := when
        data := none }

/-- `processEntry`: the anchor dispatch switch.  The anchors, in switch
order: prefix `Accepted publickey`, prefix `Certificate invalid`, suffix
`not allowed because not listed in AllowUsers`, prefix `Invalid user`;
a line matching none of them returns nil without writing. -/
def processEntry (entry : List Char) (nodename mid : String) (ts : Nat)
    (pid : String) (w : Sink) : Except String (Option AuditEvent) :=
  if ("Accepted publickey".toList).isPrefixOf entry then
    processAcceptPublicKeyEntry entry nodename mid ts pid w
  else if ("Certificate invalid".toList).isPrefixOf entry then
    processCertificateInvalidEntry entry nodename mid ts pid w
  else if ("not allowed because not listed in AllowUsers".toList).isSuffixOf entry then
    processNotInAllowUsersEntry entry nodename mid ts pid w
  else if ("Invalid user".toList).isPrefixOf entry then
    processInvalidUserEntry entry nodename mid ts pid w
  else .ok none

/-- A `types.LogEntry` as consumed from the `Entries` channel. -/
structure LogEntry where
  timestamp : Nat
  pid : String
  message : List Char

/-- One iteration of the `select` in `journaldConsumer`: either the
context is done, or an entry arrives.  A finite input list is one
schedule of the loop. -/
inductive ConsumerInput where
  | ctxDone
  | entry (e : LogEntry)

/-- How the consumer loop left (or did not leave) after consuming a
finite input schedule. -/
inductive ConsumerOutcome where
  | running
  | retNil
  | retErr (msg : String)
deriving DecidableEq

/-- The `for { select { ... } }` loop of `journaldConsumer`: emitted
events in order, plus the outcome. -/
def consumeLoop (nodename mid : String) (w : Sink) :
    List ConsumerInput → List AuditEvent × ConsumerOutcome
  | [] => ([], .running)
  | .ctxDone :: _ => ([], .retNil)
  | .entry e :: rest =>
    match processEntry e.message nodename mid e.timestamp e.pid w with
    | .error m =>
      ([], .retErr ("failed to process journal entry " ++ String.mk e.message ++ ": " ++ m))
    | .ok none => consumeLoop nodename mid w rest
    | .ok (some evt) =>
      let r := consumeLoop nodename mid w rest
      (evt :: r.1, r.2)

/-- `journaldConsumer`: machine-id lookup, then node-name lookup (each
wrapped on failure), then the consumer loop. -/
def journaldConsumer (midRes nodenameRes : Except String String) (w : Sink)
    (inputs : List ConsumerInput) : List AuditEvent × ConsumerOutcome :=
  match midRes with
  | .error e => ([], .retErr ("failed to get machine id: " ++ e))
  | .ok mid =>
    match nodenameRes with
    | .error e => ([], .retErr ("failed to get node name: " ++ e))
    | .ok nodename => consumeLoop nodename mid w inputs

/-- Leftmost search additionally reporting the match position, for
stating where a match begins and ends (`regexp` matches have a
well-defined leftmost position; `findSub` forgets it). -/
def findSubPos (ts : List Tok) : List Char → Option (Nat × List (List Char) × Nat)
  | [] => (matchToks ts []).map (fun r => (0, r.1, r.2))
  | c :: cs =>
    match matchToks ts (c :: cs) with
    | some r => some (0, r.1, r.2)
    | none => (findSubPos ts cs).map (fun r => (r.1 + 1, r.2))

/-!
## Auditd: the line-processing loop and the session filter

From `internal/auditd/gen-extra-map/main.go` (embedded in the auditd test
sources): `processAuditdEvents` scans lines, skips empty ones, parses the
rest (`auparse.ParseLogLine`, an external library, abstracted as a
parameter) and pushes parsed messages to the reassembler; a parse error
is returned immediately.  `mainWithError` drops coalesced events whose
session is empty or `"unset"` before assigning an event index
(flag `-only-ids`, set by the `go:generate` line).
-/

/-- `processAuditdEvents`: returns the messages pushed to the
reassembler, in order, and `some e` if a line failed to parse (the scan
stops there; `scanner.Err()` of an in-memory reader is nil). -/
def processAuditdEvents {Msg : Type} (parseLine : String → Except String Msg) :
    List String → List Msg × Option String
  | [] => ([], none)
  | line :: rest =>
    if line = "" then processAuditdEvents parseLine rest
    else
      match parseLine line with
      | .error e => ([], some e)
      | .ok m =>
        let r := processAuditdEvents parseLine rest
        (m :: r.1, r.2)

/-- A coalesced auditd event as the generator sees it (session plus the
summary fields that go into the generated metadata table). -/
structure CoalescedEvent where
  session : String
  action : String
  how : String
deriving DecidableEq

/-- The event loop of `mainWithError` with `-only-ids`: each coalesced
event either is dropped (session empty or `"unset"`, no case statement,
no index increment) or receives the next event index `i`. -/
def genEventsLoop (numberedSessionsOnly : Bool) :
    Nat → List CoalescedEvent → List (Nat × CoalescedEvent)
  | _, [] => []
  | i, e :: rest =>
    if numberedSessionsOnly && (e.session == "" || e.session == "unset") then
      genEventsLoop numberedSessionsOnly i rest
    else
      (i, e) :: genEventsLoop numberedSessionsOnly (i + 1) rest

/-!
## Correlator model

Modelled from the spec: the Correlator (`Auditd.Read` and its helpers)
is not under src - only its tests are - so spec section 4.3 is embedded
directly.  Two tables: `sessions` (audit session id to binding) and
`pendingLoginsByPid`.  A binding is `pending pid buffer` (audit LOGIN
seen, login not yet) or `bound login`.  On a login: bind the first
pending binding with a matching pid and drain its buffer in order, else
insert into pending logins (overwriting the pid's entry).  On an audit
LOGIN record: bind against a pending login if present (enrich and
forward the LOGIN event), else create a pending binding buffering the
LOGIN event.  On a session-end record (CRED_DISP/USER_END): if the
binding is fully bound, enrich, forward and dispose; per the spec's
per-binding state machine disposal happens only from the fully-bound
state, so while the binding is pending the event is buffered like any
other; with no binding the event is dropped.  On any other record:
forward if bound, buffer if pending (capacity `bufferCap`, dropping the
oldest on overflow), drop if unbound.  Staleness sweeps are outside the
scenarios modelled here.
-/

/-- A Remote User Login as the correlator consumes it. -/
structure Login where
  pid : Nat
  userID : String
  loggedAs : String
deriving DecidableEq

/-- A reassembled and coalesced audit event entering the correlator. -/
structure AEvent where
  session : String
  isLoginRec : Bool
  recPid : Nat
  isEnd : Bool
  action : String
  outcome : String
  seq : Nat
deriving DecidableEq

/-- An audit event enriched with the bound login's identity. -/
structure Enriched where
  userID : String
  loggedAs : String
  pid : Nat
  event : AEvent
deriving DecidableEq

/-- Enrichment attaches the login's subjects to the event. -/
def enrich (l : Login) (e : AEvent) : Enriched :=
  { userID := l.userID, loggedAs := l.loggedAs, pid := l.pid, event := e }

/-- Pre-binding buffer capacity (spec: B = 10000). -/
def bufferCap : Nat := 10000

/-- Append to a pre-binding buffer, dropping the oldest event when the
buffer is at capacity. -/
def bufAppend (buf : List AEvent) (e : AEvent) : List AEvent :=
  if buf.length < bufferCap then buf ++ [e] else buf.drop 1 ++ [e]

/-- A session binding. -/
inductive Binding where
  | pending (pid : Nat) (buf : List AEvent)
  | bound (l : Login)
deriving DecidableEq

/-- Correlator state: the session table and the pending-logins table. -/
structure CorrState where
  sessions : List (String × Binding)
  pendingLogins : List (Nat × Login)

/-- Insert or replace the binding of session `k`. -/
def setSession (s : List (String × Binding)) (k : String) (b : Binding) :
    List (String × Binding) :=
  (k, b) :: s.filter (fun p => !(p.1 == k))

/-- Remove the binding of session `k`. -/
def removeSession (s : List (String × Binding)) (k : String) :
    List (String × Binding) :=
  s.filter (fun p => !(p.1 == k))

/-- First session whose binding is pending with the given pid. -/
def findPendingByPid : List (String × Binding) → Nat → Option (String × List AEvent)
  | [], _ => none
  | (k, .pending q buf) :: rest, p =>
    if q = p then some (k, buf) else findPendingByPid rest p
  | (_, .bound _) :: rest, p => findPendingByPid rest p

/-- One correlator input: a login or a reassembled audit event. -/
inductive CorrInput where
  | login (l : Login)
  | audit (e : AEvent)

/-- One correlator step: next state plus the enriched events forwarded. -/
def corrStep (st : CorrState) : CorrInput → CorrState × List Enriched
  | .login l =>
    match findPendingByPid st.sessions l.pid with
    | some (k, buf) =>
      ({ st with sessions := setSession st.sessions k (.bound l) }, buf.map (enrich l))
    | none =>
      ({ st with
          pendingLogins := (l.pid, l) :: st.pendingLogins.filter (fun q => !(q.1 == l.pid)) },
       [])
  | .audit e =>
    if e.isLoginRec then
      match List.lookup e.recPid st.pendingLogins with
      | some l =>
        ({ sessions := setSession st.sessions e.session (.bound l)
           pendingLogins := st.pendingLogins.filter (fun q => !(q.1 == e.recPid)) },
         [enrich l e])
      | none =>
        ({ st with sessions := setSession st.sessions e.session (.pending e.recPid [e]) },
         [])
    else
      match List.lookup e.session st.sessions with
      | some (.bound l) =>
        if e.isEnd then
          ({ st with sessions := removeSession st.sessions e.session }, [enrich l e])
        else (st, [enrich l e])
      | some (.pending q buf) =>
        ({ st with sessions := setSession st.sessions e.session (.pending q (bufAppend buf e)) },
         [])
      | none => (st, [])

/-- Run the correlator over an input sequence, concatenating outputs. -/
def corrRun (st : CorrState) : List CorrInput → List Enriched
  | [] => []
  | i :: rest =>
    let r := corrStep st i
    r.2 ++ corrRun r.1 rest

/-- Run from the empty state. -/
def runCorrelator (inputs : List CorrInput) : List Enriched :=
  corrRun { sessions := [], pendingLogins := [] } inputs

/-- `true` when no event of session `s` follows a session-end event of
session `s` in the list (the shape of the good-corpus stream: the
logout file precedes only unrelated-session records). -/
def noSEventAfterEnd (s : String) : List AEvent → Bool
  | [] => true
  | e :: rest =>
    (if e.session == s && e.isEnd then rest.all (fun x => !(x.session == s)) else true)
      && noSEventAfterEnd s rest

/-!
## Helper lemmas
-/

/-- A nonempty pattern that is a prefix of `l` determines the head of `l`. -/
theorem head_of_isPrefixOf {x : Char} {xs l : List Char}
    (h : ((x :: xs).isPrefixOf l) = true) :
    ∃ t, l = x :: t ∧ xs.isPrefixOf t = true := by
  cases l with
  | nil => simp [List.isPrefixOf] at h
  | cons c cs =>
    simp only [List.isPrefixOf_cons₂, Bool.and_eq_true] at h
    obtain ⟨h1, h2⟩ := h
    exact ⟨cs, by rw [beq_iff_eq.mp h1], h2⟩

/-- A line that starts with `Certificate invalid` does not start with
`Accepted publickey`. -/
theorem not_accept_of_cert {l : List Char}
    (h : (("Certificate invalid".toList).isPrefixOf l) = true) :
    ("Accepted publickey".toList).isPrefixOf l = false := by
  have h' : (('C' :: "ertificate invalid".toList).isPrefixOf l) = true := h
  obtain ⟨t, rfl, -⟩ := head_of_isPrefixOf h'
  show (('A' :: "ccepted publickey".toList).isPrefixOf ('C' :: t)) = false
  rw [List.isPrefixOf_cons₂, show ('A' == 'C') = false from rfl, Bool.false_and]

/-- A successful write through a sink returns exactly the written event. -/
theorem writeEvt_ok {w : Sink} {evt e : AuditEvent}
    (h : writeEvt w evt = .ok (some e)) : e = evt := by
  unfold writeEvt at h
  cases hw : w evt <;> rw [hw] at h <;> simp at h
  exact h.symm

/-!
## Claim theorems
-/

/-- C1 (counterexample): on the first Scenario-E line the emitted extra
data is the object with Alg `ED25519 SHA256` and SSHKeySum `abc` - the
greedy `[\w -]+` algorithm class absorbs the space and `SHA256` - and
not, as the claim states, algorithm `ED25519` with key sum `SHA256:abc`. -/
theorem c1_counterexample :
    processEntry ("Accepted publickey for alice from 10.0.0.1 port 51234 ssh2: ED25519 SHA256:abc".toList)
        "node" "mid" 7 "99" okSink =
      .ok (some
        { type := ActionLoginIdentifier
          source := { type := "IP", value := "10.0.0.1", extra := [("port", "51234")] }
          outcome := OutcomeSucceeded
          subjects := [("userID", "unknown"), ("loggedAs", "alice"), ("pid", "99")]
          component := "sshd"
          target := [("host", "node"), ("machine-id", "mid")]
          loggedAt := 7
          data := some [("Alg", "ED25519 SHA256"), ("SSHKeySum", "abc")] })
    ∧ (some [("Alg", "ED25519 SHA256"), ("SSHKeySum", "abc")]
        ≠ some (extraDataWithoutCA "ED25519" "SHA256:abc")) :=
  ⟨rfl, by decide⟩

/-- C1 (amended): for the sshd line `Accepted publickey for alice from
10.0.0.1 port 51234 ssh2: ED25519 SHA256:abc` the parser emits a success
login event with subjects userID `unknown` and extra data exactly
`{Alg: "ED25519 SHA256", SSHKeySum: "abc"}` (the greedy `[\w -]+`
algorithm capture absorbs the space and `SHA256`, leaving `abc` as the
key sum); for the same line extended with
` ID alice@example (serial 42) CA ssh-rsa SHA256:ca` it emits a success
login event with userID `alice@example` and extra data additionally
containing `{Serial: "42", CA: "CA ssh-rsa SHA256:ca"}`. -/
theorem c1_accept_publickey_lines :
    ∀ (nodename mid : String) (ts : Nat) (pid : String),
    processEntry ("Accepted publickey for alice from 10.0.0.1 port 51234 ssh2: ED25519 SHA256:abc".toList)
        nodename mid ts pid okSink =
      .ok (some
        { type := ActionLoginIdentifier
          source := { type := "IP", value := "10.0.0.1", extra := [("port", "51234")] }
          outcome := OutcomeSucceeded
          subjects := [("userID", "unknown"), ("loggedAs", "alice"), ("pid", pid)]
          component := "sshd"
          target := [("host", nodename), ("machine-id", mid)]
          loggedAt := ts
          data := some [("Alg", "ED25519 SHA256"), ("SSHKeySum", "abc")] })
    ∧ processEntry ("Accepted publickey for alice from 10.0.0.1 port 51234 ssh2: ED25519 SHA256:abc ID alice@example (serial 42) CA ssh-rsa SHA256:ca".toList)
        nodename mid ts pid okSink =
      .ok (some
        { type := ActionLoginIdentifier
          source := { type := "IP", value := "10.0.0.1", extra := [("port", "51234")] }
          outcome := OutcomeSucceeded
          subjects := [("userID", "alice@example"), ("loggedAs", "alice"), ("pid", pid)]
          component := "sshd"
          target := [("host", nodename), ("machine-id", mid)]
          loggedAt := ts
          data := some [("Alg", "ED25519 SHA256"), ("CA", "CA ssh-rsa SHA256:ca"),
                        ("SSHKeySum", "abc"), ("Serial", "42")] }) :=
  fun _ _ _ _ => ⟨rfl, rfl⟩

/-- C2 (counterexample): the line `Certificate invalid` matches none of
the four anchors stated by the claim (prefix `Accepted publickey for`,
prefix `Certificate invalid:`, the AllowUsers suffix, prefix
`Invalid user`), yet `processEntry` emits a failure event for it: the
code anchors on the prefix `Certificate invalid` without the colon. -/
theorem c2_counterexample :
    ("Accepted publickey for".toList).isPrefixOf ("Certificate invalid".toList) = false
    ∧ ("Certificate invalid:".toList).isPrefixOf ("Certificate invalid".toList) = false
    ∧ ("not allowed because not listed in AllowUsers".toList).isSuffixOf
        ("Certificate invalid".toList) = false
    ∧ ("Invalid user".toList).isPrefixOf ("Certificate invalid".toList) = false
    ∧ processEntry ("Certificate invalid".toList) "node" "mid" 7 "99" okSink =
      .ok (some
        { type := ActionLoginIdentifier
          source := { type := "IP", value := "unknown", extra := [("port", "unknown")] }
          outcome := OutcomeFailed
          subjects := [("loggedAs", "unknown"), ("userID", "unknown"), ("pid", "99")]
          component := "sshd"
          target := [("host", "node"), ("machine-id", "mid")]
          loggedAt := 7
          data := some [("error", "certificate invalid"), ("reason", "unknown reason")] }) :=
  ⟨rfl, rfl, rfl, rfl, rfl⟩

/-- C2 (amended): `processEntry` dispatches by the anchors actually in
the switch - prefix `Accepted publickey`, prefix `Certificate invalid`
(both without the claim's trailing ` for` and `:`), the AllowUsers
suffix, prefix `Invalid user`, in that priority order, so each line
reaches at most one handler - and a line matching none of the four
anchors produces no output event and no error. -/
theorem c2_dispatch :
    (∀ (entry : List Char) (n m : String) (t : Nat) (pid : String) (w : Sink),
      ("Accepted publickey".toList).isPrefixOf entry = false →
      ("Certificate invalid".toList).isPrefixOf entry = false →
      ("not allowed because not listed in AllowUsers".toList).isSuffixOf entry = false →
      ("Invalid user".toList).isPrefixOf entry = false →
      processEntry entry n m t pid w = .ok none)
    ∧ (∀ (entry : List Char) (n m : String) (t : Nat) (pid : String) (w : Sink),
      ("Accepted publickey".toList).isPrefixOf entry = true →
      processEntry entry n m t pid w = processAcceptPublicKeyEntry entry n m t pid w)
    ∧ (∀ (entry : List Char) (n m : String) (t : Nat) (pid : String) (w : Sink),
      ("Accepted publickey".toList).isPrefixOf entry = false →
      ("Certificate invalid".toList).isPrefixOf entry = true →
      processEntry entry n m t pid w = processCertificateInvalidEntry entry n m t pid w)
    ∧ (∀ (entry : List Char) (n m : String) (t : Nat) (pid : String) (w : Sink),
      ("Accepted publickey".toList).isPrefixOf entry = false →
      ("Certificate invalid".toList).isPrefixOf entry = false →
      ("not allowed because not listed in AllowUsers".toList).isSuffixOf entry = true →
      processEntry entry n m t pid w = processNotInAllowUsersEntry entry n m t pid w)
    ∧ (∀ (entry : List Char) (n m : String) (t : Nat) (pid : String) (w : Sink),
      ("Accepted publickey".toList).isPrefixOf entry = false →
      ("Certificate invalid".toList).isPrefixOf entry = false →
      ("not allowed because not listed in AllowUsers".toList).isSuffixOf entry = false →
      ("Invalid user".toList).isPrefixOf entry = true →
      processEntry entry n m t pid w = processInvalidUserEntry entry n m t pid w) := by
  refine ⟨?_, ?_, ?_, ?_, ?_⟩
  · intro entry n m t pid w h1 h2 h3 h4
    unfold processEntry
    rw [if_neg (fun hc => by rw [h1] at hc; exact Bool.false_ne_true hc),
      if_neg (fun hc => by rw [h2] at hc; exact Bool.false_ne_true hc),
      if_neg (fun hc => by rw [h3] at hc; exact Bool.false_ne_true hc),
      if_neg (fun hc => by rw [h4] at hc; exact Bool.false_ne_true hc)]
  · intro entry n m t pid w h1
    unfold processEntry
    rw [if_pos h1]
  · intro entry n m t pid w h1 h2
    unfold processEntry
    rw [if_neg (fun hc => by rw [h1] at hc; exact Bool.false_ne_true hc), if_pos h2]
  · intro entry n m t pid w h1 h2 h3
    unfold processEntry
    rw [if_neg (fun hc => by rw [h1] at hc; exact Bool.false_ne_true hc),
      if_neg (fun hc => by rw [h2] at hc; exact Bool.false_ne_true hc), if_pos h3]
  · intro entry n m t pid w h1 h2 h3 h4
    unfold processEntry
    rw [if_neg (fun hc => by rw [h1] at hc; exact Bool.false_ne_true hc),
      if_neg (fun hc => by rw [h2] at hc; exact Bool.false_ne_true hc),
      if_neg (fun hc => by rw [h3] at hc; exact Bool.false_ne_true hc), if_pos h4]

/-- C2 witness: the silent-ignore conjunct of the dispatch theorem at
the concrete line `hello`. -/
theorem c2_dispatch_witness :
    processEntry ("hello".toList) "node" "mid" 7 "99" okSink = .ok none :=
  c2_dispatch.1 ("hello".toList) "node" "mid" 7 "99" okSink rfl rfl rfl rfl

/-- C5 (counterexample): for the line `Certificate invalid:x` the
remainder after the anchor `Certificate invalid:` is the nonempty `x`,
so the claim predicts reason `x`; the code compares against the
21-character prefix `Certificate invalid: ` (anchor plus space) and
emits `unknown reason`. -/
theorem c5_counterexample :
    processEntry ("Certificate invalid:x".toList) "node" "mid" 7 "99" okSink =
      .ok (some
        { type := ActionLoginIdentifier
          source := { type := "IP", value := "unknown", extra := [("port", "unknown")] }
          outcome := OutcomeFailed
          subjects := [("loggedAs", "unknown"), ("userID", "unknown"), ("pid", "99")]
          component := "sshd"
          target := [("host", "node"), ("machine-id", "mid")]
          loggedAt := 7
          data := some [("error", "certificate invalid"), ("reason", "unknown reason")] })
    ∧ ("Certificate invalid:x".toList).drop ("Certificate invalid:".toList).length = ['x']
    ∧ ("unknown reason" : String) ≠ "x" :=
  ⟨rfl, rfl, by decide⟩

/-- C5 (amended): every line recognized as the Certificate-invalid shape
(prefix `Certificate invalid`, as dispatched) yields a failure event
whose reason is the remainder of the line after the 21-character text
`Certificate invalid: ` (the anchor, the colon and one space), and
`unknown reason` when the line is no longer than that text; in
particular `Certificate invalid: expired` yields reason `expired`. -/
theorem c5_cert_invalid_reason :
    (∀ (logentry : List Char) (n m : String) (t : Nat) (pid : String),
      ("Certificate invalid".toList).isPrefixOf logentry = true →
      processEntry logentry n m t pid okSink =
        .ok (some
          { type := ActionLoginIdentifier
            source := { type := "IP", value := "unknown", extra := [("port", "unknown")] }
            outcome := OutcomeFailed
            subjects := [("loggedAs", UnknownUser), ("userID", UnknownUser), ("pid", pid)]
            component := "sshd"
            target := [("host", n), ("machine-id", m)]
            loggedAt := t
            data := some [("error", "certificate invalid"),
              ("reason", if logentry.length ≤ 21 then "unknown reason"
                         else String.mk (logentry.drop 21))] }))
    ∧ processEntry ("Certificate invalid: expired".toList) "node" "mid" 7 "99" okSink =
      .ok (some
        { type := ActionLoginIdentifier
          source := { type := "IP", value := "unknown", extra := [("port", "unknown")] }
          outcome := OutcomeFailed
          subjects := [("loggedAs", "unknown"), ("userID", "unknown"), ("pid", "99")]
          component := "sshd"
          target := [("host", "node"), ("machine-id", "mid")]
          loggedAt := 7
          data := some [("error", "certificate invalid"), ("reason", "expired")] }) := by
  refine ⟨?_, rfl⟩
  intro logentry n m t pid h
  unfold processEntry
  rw [if_neg (fun hc => by rw [not_accept_of_cert h] at hc; exact Bool.false_ne_true hc),
    if_pos h]
  exact rfl

/-- C5 witness: the amended reason computation applied to the concrete
line `Certificate invalid: access denied`. -/
theorem c5_cert_invalid_reason_witness :
    processEntry ("Certificate invalid: access denied".toList) "node" "mid" 3 "8" okSink =
      .ok (some
        { type := ActionLoginIdentifier
          source := { type := "IP", value := "unknown", extra := [("port", "unknown")] }
          outcome := OutcomeFailed
          subjects := [("loggedAs", UnknownUser), ("userID", UnknownUser), ("pid", "8")]
          component := "sshd"
          target := [("host", "node"), ("machine-id", "mid")]
          loggedAt := 3
          data := some [("error", "certificate invalid"),
            ("reason", if ("Certificate invalid: access denied".toList).length ≤ 21
                       then "unknown reason"
                       else String.mk (("Certificate invalid: access denied".toList).drop 21))] }) :=
  c5_cert_invalid_reason.1 ("Certificate invalid: access denied".toList) "node" "mid" 3 "8" rfl

/-- C7: in the `-only-ids` event loop of `mainWithError`, every
coalesced event whose session is empty or `unset` is dropped (it appears
in no output pair and consumes no event index), and every other event is
retained: the emitted events are exactly the filtered input, and the
indices are consecutive from the start index. -/
theorem c7_session_filter :
    ∀ (evs : List CoalescedEvent) (i : Nat),
      (genEventsLoop true i evs).map Prod.snd
          = evs.filter (fun e => !(e.session == "" || e.session == "unset"))
      ∧ (genEventsLoop true i evs).map Prod.fst
          = List.range' i
              (evs.filter (fun e => !(e.session == "" || e.session == "unset"))).length := by
  intro evs
  induction evs with
  | nil => intro i; exact ⟨rfl, rfl⟩
  | cons e rest ih =>
    intro i
    cases hb : (e.session == "" || e.session == "unset") with
    | true =>
      have hp : (!(e.session == "" || e.session == "unset")) = false := by rw [hb]; rfl
      have hg : genEventsLoop true i (e :: rest) = genEventsLoop true i rest := by
        simp [genEventsLoop, hb]
      rw [hg, @List.filter_cons_of_neg _ (fun x => !(x.session == "" || x.session == "unset"))
        e rest (fun hc => by
          have hc2 : (!(e.session == "" || e.session == "unset")) = true := hc
          rw [hp] at hc2; exact Bool.false_ne_true hc2)]
      exact ih i
    | false =>
      have hp : (!(e.session == "" || e.session == "unset")) = true := by rw [hb]; rfl
      have hg : genEventsLoop true i (e :: rest) = (i, e) :: genEventsLoop true (i + 1) rest := by
        simp [genEventsLoop, hb]
      rw [hg, @List.filter_cons_of_pos _ (fun x => !(x.session == "" || x.session == "unset"))
        e rest hp]
      refine ⟨?_, ?_⟩
      · simp only [List.map_cons]; rw [(ih (i + 1)).1]
      · simp only [List.map_cons, List.length_cons]; rw [(ih (i + 1)).2]; rfl

/-- C10: if the machine-id lookup fails, `journaldConsumer` returns the
wrapped error with no event emitted, for every input schedule; likewise
for the node-name lookup; and when the context is cancelled the loop
returns nil (no error) without emitting. -/
theorem c10_startup_errors_and_cancellation :
    (∀ (e : String) (nodenameRes : Except String String) (w : Sink)
        (inputs : List ConsumerInput),
      journaldConsumer (.error e) nodenameRes w inputs
        = ([], .retErr ("failed to get machine id: " ++ e)))
    ∧ (∀ (e mid : String) (w : Sink) (inputs : List ConsumerInput),
      journaldConsumer (.ok mid) (.error e) w inputs
        = ([], .retErr ("failed to get node name: " ++ e)))
    ∧ (∀ (mid nodename : String) (w : Sink) (rest : List ConsumerInput),
      journaldConsumer (.ok mid) (.ok nodename) w (.ctxDone :: rest) = ([], .retNil)) :=
  ⟨fun _ _ _ _ => rfl, fun _ _ _ _ => rfl, fun _ _ _ _ => rfl⟩

/-- C6: in the audit line loop, an empty line is skipped with no output
and no error; and if every earlier line is empty or parses, a non-empty
line whose parse fails stops the loop with exactly that error - the
result does not depend on the lines that follow. -/
theorem c6_reassembler_line_loop :
    (∀ {Msg : Type} (parseLine : String → Except String Msg) (rest : List String),
      processAuditdEvents parseLine ("" :: rest) = processAuditdEvents parseLine rest)
    ∧ (∀ {Msg : Type} (parseLine : String → Except String Msg)
        (pre : List String) (line e : String) (rest rest2 : List String),
      (∀ l ∈ pre, l = "" ∨ ∃ msg, parseLine l = .ok msg) →
      line ≠ "" → parseLine line = .error e →
      processAuditdEvents parseLine (pre ++ line :: rest)
          = processAuditdEvents parseLine (pre ++ line :: rest2)
        ∧ (processAuditdEvents parseLine (pre ++ line :: rest)).2 = some e) := by
  constructor
  · intro Msg parseLine rest
    simp [processAuditdEvents]
  · intro Msg parseLine pre line e rest rest2 hpre hline herr
    induction pre with
    | nil =>
      refine ⟨?_, ?_⟩ <;> simp [processAuditdEvents, hline, herr]
    | cons l pre ih =>
      have ihh := ih (fun x hx => hpre x (List.mem_cons_of_mem l hx))
      by_cases hle : l = ""
      · subst hle
        simpa [processAuditdEvents] using ihh
      · rcases hpre l (List.mem_cons_self l pre) with hl | ⟨msg, hmsg⟩
        · exact absurd hl hle
        · refine ⟨?_, ?_⟩
          · simp [processAuditdEvents, hle, hmsg, ihh.1]
          · simp [processAuditdEvents, hle, hmsg, ihh.2]

/-- C6 witness: the fatal-parse-error conjunct at a concrete parser and
line list. -/
theorem c6_reassembler_line_loop_witness :
    processAuditdEvents (fun s => if s = "bad" then .error "boom" else .ok s)
        (["rec", ""] ++ "bad" :: ["tail1", "tail2"])
      = processAuditdEvents (fun s => if s = "bad" then .error "boom" else .ok s)
          (["rec", ""] ++ "bad" :: [])
    ∧ (processAuditdEvents (fun s => if s = "bad" then .error "boom" else .ok s)
        (["rec", ""] ++ "bad" :: ["tail1", "tail2"])).2 = some "boom" :=
  by
  refine c6_reassembler_line_loop.2 (fun s => if s = "bad" then .error "boom" else .ok s)
    ["rec", ""] "bad" "boom" ["tail1", "tail2"] [] ?_ (by decide) rfl
  intro l hl
  have hl2 : l = "rec" ∨ l = "" := by simpa using hl
  rcases hl2 with rfl | rfl
  · exact Or.inr ⟨"rec", rfl⟩
  · exact Or.inl rfl

/-- After an anchor match, a failing per-shape regex yields nil for the
accept-publickey handler. -/
theorem accept_regex_fail_nil (le : List Char) (n m : String) (t : Nat)
    (pid : String) (w : Sink) (hf : findSub loginToks le = none) :
    processAcceptPublicKeyEntry le n m t pid w = .ok none := by
  unfold processAcceptPublicKeyEntry
  rw [hf]

/-- Write failure propagation for the accept-publickey handler. -/
theorem accept_write_fail (le : List Char) (n m : String) (t : Nat)
    (pid msg : String) (evt : AuditEvent)
    (h : processAcceptPublicKeyEntry le n m t pid okSink = .ok (some evt)) :
    processAcceptPublicKeyEntry le n m t pid (failSink msg)
      = .error ("journaldConsumer: Failed to write event: " ++ msg) := by
  unfold processAcceptPublicKeyEntry at h ⊢
  split at h
  · exact absurd h (by simp)
  · rename_i caps mlen heq
    dsimp only at h ⊢
    by_cases hl : le.length = mlen
    · rw [if_pos hl]; rfl
    · rw [if_neg hl]
      cases hc : findSub certIDToks (le.drop (mlen + 1)) with
      | none => rfl
      | some r2 => obtain ⟨idCaps, r3⟩ := r2; rfl

/-- Write failure propagation for the not-in-AllowUsers handler. -/
theorem notallow_write_fail (le : List Char) (n m : String) (t : Nat)
    (pid msg : String) (evt : AuditEvent)
    (h : processNotInAllowUsersEntry le n m t pid okSink = .ok (some evt)) :
    processNotInAllowUsersEntry le n m t pid (failSink msg)
      = .error ("journaldConsumer: Failed to write event: " ++ msg) := by
  unfold processNotInAllowUsersEntry at h ⊢
  split at h
  · exact absurd h (by simp)
  · rfl

/-- Write failure propagation for the invalid-user handler. -/
theorem invaliduser_write_fail (le : List Char) (n m : String) (t : Nat)
    (pid msg : String) (evt : AuditEvent)
    (h : processInvalidUserEntry le n m t pid okSink = .ok (some evt)) :
    processInvalidUserEntry le n m t pid (failSink msg)
      = .error ("journaldConsumer: Failed to write event: " ++ msg) := by
  unfold processInvalidUserEntry at h ⊢
  split at h
  · exact absurd h (by simp)
  · rfl

/-- Write failure propagation through the dispatcher: a line that emits
an event under an accepting sink returns the wrapped write error under a
failing sink. -/
theorem processEntry_write_fail (le : List Char) (n m : String) (t : Nat)
    (pid msg : String) (evt : AuditEvent)
    (h : processEntry le n m t pid okSink = .ok (some evt)) :
    processEntry le n m t pid (failSink msg)
      = .error ("journaldConsumer: Failed to write event: " ++ msg) := by
  unfold processEntry at h ⊢
  by_cases h1 : ("Accepted publickey".toList).isPrefixOf le = true
  · rw [if_pos h1] at h ⊢
    exact accept_write_fail le n m t pid msg evt h
  · rw [if_neg h1] at h ⊢
    by_cases h2 : ("Certificate invalid".toList).isPrefixOf le = true
    · rw [if_pos h2]
      rfl
    · rw [if_neg h2] at h ⊢
      by_cases h3 : ("not allowed because not listed in AllowUsers".toList).isSuffixOf le = true
      · rw [if_pos h3] at h ⊢
        exact notallow_write_fail le n m t pid msg evt h
      · rw [if_neg h3] at h ⊢
        by_cases h4 : ("Invalid user".toList).isPrefixOf le = true
        · rw [if_pos h4] at h ⊢
          exact invaliduser_write_fail le n m t pid msg evt h
        · rw [if_neg h4] at h
          exact absurd h (by simp)

/-- C4: a failing per-shape regex after an anchor match makes each
regex-bearing handler return nil, and the consumer loop continues past
such an entry; a failing sink write makes the dispatched handler return
the wrapped write error, and the consumer loop stops at such an entry
with the doubly-wrapped error, processing no further input. -/
theorem c4_regex_nonfatal_write_fatal :
    (∀ (le : List Char) (n m : String) (t : Nat) (pid : String) (w : Sink),
      findSub loginToks le = none → processAcceptPublicKeyEntry le n m t pid w = .ok none)
    ∧ (∀ (le : List Char) (n m : String) (t : Nat) (pid : String) (w : Sink),
      findSub notInAllowUsersToks le = none →
      processNotInAllowUsersEntry le n m t pid w = .ok none)
    ∧ (∀ (le : List Char) (n m : String) (t : Nat) (pid : String) (w : Sink),
      findSub invalidUserToks le = none → processInvalidUserEntry le n m t pid w = .ok none)
    ∧ (∀ (n m : String) (w : Sink) (e : LogEntry) (rest : List ConsumerInput),
      processEntry e.message n m e.timestamp e.pid w = .ok none →
      consumeLoop n m w (.entry e :: rest) = consumeLoop n m w rest)
    ∧ (∀ (le : List Char) (n m : String) (t : Nat) (pid msg : String) (evt : AuditEvent),
      processEntry le n m t pid okSink = .ok (some evt) →
      processEntry le n m t pid (failSink msg)
        = .error ("journaldConsumer: Failed to write event: " ++ msg))
    ∧ (∀ (n m : String) (w : Sink) (e : LogEntry) (rest : List ConsumerInput) (msg : String),
      processEntry e.message n m e.timestamp e.pid w = .error msg →
      consumeLoop n m w (.entry e :: rest)
        = ([], .retErr ("failed to process journal entry "
            ++ String.mk e.message ++ ": " ++ msg))) := by
  refine ⟨?_, ?_, ?_, ?_, ?_, ?_⟩
  · exact accept_regex_fail_nil
  · intro le n m t pid w hf
    unfold processNotInAllowUsersEntry
    rw [hf]
  · intro le n m t pid w hf
    unfold processInvalidUserEntry
    rw [hf]
  · intro n m w e rest h
    simp [consumeLoop, h]
  · exact processEntry_write_fail
  · intro n m w e rest msg h
    simp [consumeLoop, h]

/-- C4 witness: a write failure on the concrete cert-invalid line stops
the loop with the wrapped error, leaving the rest unprocessed. -/
theorem c4_regex_nonfatal_write_fatal_witness :
    consumeLoop "node" "mid" (failSink "boom")
      [.entry ⟨7, "99", "Certificate invalid: expired".toList⟩, .ctxDone]
      = ([], .retErr ("failed to process journal entry "
          ++ String.mk ("Certificate invalid: expired".toList)
          ++ ": " ++ "journaldConsumer: Failed to write event: boom")) :=
  c4_regex_nonfatal_write_fatal.2.2.2.2.2 "node" "mid" (failSink "boom")
    ⟨7, "99", "Certificate invalid: expired".toList⟩ [.ctxDone]
    "journaldConsumer: Failed to write event: boom" rfl

/-- Field shape of events emitted by the accept-publickey handler. -/
theorem accept_emits_fields (le : List Char) (n m : String) (t : Nat)
    (pid : String) (w : Sink) (e : AuditEvent)
    (h : processAcceptPublicKeyEntry le n m t pid w = .ok (some e)) :
    e.type = ActionLoginIdentifier
    ∧ (List.lookup "userID" e.subjects).isSome = true
    ∧ (List.lookup "loggedAs" e.subjects).isSome = true
    ∧ (List.lookup "pid" e.subjects).isSome = true
    ∧ (List.lookup "host" e.target).isSome = true
    ∧ (List.lookup "machine-id" e.target).isSome = true := by
  unfold processAcceptPublicKeyEntry at h
  split at h
  · exact absurd h (by simp)
  · rename_i caps mlen heq
    dsimp only at h
    by_cases hl : le.length = mlen
    · rw [if_pos hl] at h
      have he := writeEvt_ok h
      subst he
      exact ⟨rfl, rfl, rfl, rfl, rfl, rfl⟩
    · rw [if_neg hl] at h
      cases hc : findSub certIDToks (le.drop (mlen + 1)) with
      | none =>
        rw [hc] at h
        have he := writeEvt_ok h
        subst he
        exact ⟨rfl, rfl, rfl, rfl, rfl, rfl⟩
      | some r2 =>
        obtain ⟨idCaps, r3⟩ := r2
        rw [hc] at h
        have he := writeEvt_ok h
        subst he
        exact ⟨rfl, rfl, rfl, rfl, rfl, rfl⟩

/-- Field shape of events emitted by the certificate-invalid handler. -/
theorem cert_emits_fields (le : List Char) (n m : String) (t : Nat)
    (pid : String) (w : Sink) (e : AuditEvent)
    (h : processCertificateInvalidEntry le n m t pid w = .ok (some e)) :
    e.type = ActionLoginIdentifier
    ∧ (List.lookup "userID" e.subjects).isSome = true
    ∧ (List.lookup "loggedAs" e.subjects).isSome = true
    ∧ (List.lookup "pid" e.subjects).isSome = true
    ∧ (List.lookup "host" e.target).isSome = true
    ∧ (List.lookup "machine-id" e.target).isSome = true := by
  unfold processCertificateInvalidEntry at h
  have he := writeEvt_ok h
  subst he
  exact ⟨rfl, rfl, rfl, rfl, rfl, rfl⟩

/-- Field shape of events emitted by the not-in-AllowUsers handler. -/
theorem notallow_emits_fields (le : List Char) (n m : String) (t : Nat)
    (pid : String) (w : Sink) (e : AuditEvent)
    (h : processNotInAllowUsersEntry le n m t pid w = .ok (some e)) :
    e.type = ActionLoginIdentifier
    ∧ (List.lookup "userID" e.subjects).isSome = true
    ∧ (List.lookup "loggedAs" e.subjects).isSome = true
    ∧ (List.lookup "pid" e.subjects).isSome = true
    ∧ (List.lookup "host" e.target).isSome = true
    ∧ (List.lookup "machine-id" e.target).isSome = true := by
  unfold processNotInAllowUsersEntry at h
  split at h
  · exact absurd h (by simp)
  · have he := writeEvt_ok h
    subst he
    exact ⟨rfl, rfl, rfl, rfl, rfl, rfl⟩

/-- Field shape of events emitted by the invalid-user handler. -/
theorem invaliduser_emits_fields (le : List Char) (n m : String) (t : Nat)
    (pid : String) (w : Sink) (e : AuditEvent)
    (h : processInvalidUserEntry le n m t pid w = .ok (some e)) :
    e.type = ActionLoginIdentifier
    ∧ (List.lookup "userID" e.subjects).isSome = true
    ∧ (List.lookup "loggedAs" e.subjects).isSome = true
    ∧ (List.lookup "pid" e.subjects).isSome = true
    ∧ (List.lookup "host" e.target).isSome = true
    ∧ (List.lookup "machine-id" e.target).isSome = true := by
  unfold processInvalidUserEntry at h
  split at h
  · exact absurd h (by simp)
  · have he := writeEvt_ok h
    subst he
    exact ⟨rfl, rfl, rfl, rfl, rfl, rfl⟩

/-- C9: every event the parser writes, under any of the four shapes, has
a Subjects map containing the keys userID, loggedAs and pid, a Target
map containing host and machine-id, and event type
common.ActionLoginIdentifier. -/
theorem c9_emitted_event_fields (entry : List Char) (n m : String) (t : Nat)
    (pid : String) (w : Sink) (e : AuditEvent)
    (h : processEntry entry n m t pid w = .ok (some e)) :
    e.type = ActionLoginIdentifier
    ∧ (List.lookup "userID" e.subjects).isSome = true
    ∧ (List.lookup "loggedAs" e.subjects).isSome = true
    ∧ (List.lookup "pid" e.subjects).isSome = true
    ∧ (List.lookup "host" e.target).isSome = true
    ∧ (List.lookup "machine-id" e.target).isSome = true := by
  unfold processEntry at h
  by_cases h1 : ("Accepted publickey".toList).isPrefixOf entry = true
  · rw [if_pos h1] at h
    exact accept_emits_fields entry n m t pid w e h
  · rw [if_neg h1] at h
    by_cases h2 : ("Certificate invalid".toList).isPrefixOf entry = true
    · rw [if_pos h2] at h
      exact cert_emits_fields entry n m t pid w e h
    · rw [if_neg h2] at h
      by_cases h3 : ("not allowed because not listed in AllowUsers".toList).isSuffixOf entry = true
      · rw [if_pos h3] at h
        exact notallow_emits_fields entry n m t pid w e h
      · rw [if_neg h3] at h
        by_cases h4 : ("Invalid user".toList).isPrefixOf entry = true
        · rw [if_pos h4] at h
          exact invaliduser_emits_fields entry n m t pid w e h
        · rw [if_neg h4] at h
          exact absurd h (by simp)

/-- C9 witness: the field invariant at the concrete cert-invalid line. -/
theorem c9_emitted_event_fields_witness :
    certExpiredEvt.type = ActionLoginIdentifier
    ∧ (List.lookup "userID" certExpiredEvt.subjects).isSome = true
    ∧ (List.lookup "loggedAs" certExpiredEvt.subjects).isSome = true
    ∧ (List.lookup "pid" certExpiredEvt.subjects).isSome = true
    ∧ (List.lookup "host" certExpiredEvt.target).isSome = true
    ∧ (List.lookup "machine-id" certExpiredEvt.target).isSome = true :=
  c9_emitted_event_fields ("Certificate invalid: expired".toList) "node" "mid" 7 "99"
    okSink certExpiredEvt rfl

/-- The position-reporting search agrees with `findSub` after the
position is dropped. -/
theorem findSub_eq_findSubPos (ts : List Tok) :
    ∀ cs : List Char, findSub ts cs = (findSubPos ts cs).map (fun r => r.2) := by
  intro cs
  induction cs with
  | nil =>
    unfold findSub findSubPos
    cases matchToks ts [] <;> rfl
  | cons c cs ih =>
    unfold findSub findSubPos
    cases matchToks ts (c :: cs) with
    | some r => rfl
    | none =>
      rw [ih]
      cases findSubPos ts cs <;> rfl

/-- C3 (counterexample): on `advPublickeyLine` the base login regex
matches (leftmost at position 67, spanning the final 48 characters, so
no characters remain after the match), yet the handler slices the line
at offset `len(matches[0]) + 1 = 49`, where the certificate regex
matches, and it emits userID `u` with Serial and CA extras instead of
the sentinel `unknown` with algorithm and key sum only. -/
theorem c3_counterexample :
    findSub loginToks advPublickeyLine = some ([['a'], ['b'], ['9'], ['R'], ['k']], 48)
    ∧ findSubPos loginToks advPublickeyLine = some (67, [['a'], ['b'], ['9'], ['R'], ['k']], 48)
    ∧ 67 + 48 = advPublickeyLine.length
    ∧ processAcceptPublicKeyEntry advPublickeyLine "node" "mid" 7 "99" okSink =
      .ok (some
        { type := ActionLoginIdentifier
          source := { type := "IP", value := "b", extra := [("port", "9")] }
          outcome := OutcomeSucceeded
          subjects := [("userID", "u"), ("loggedAs", "a"), ("pid", "99")]
          component := "sshd"
          target := [("host", "node"), ("machine-id", "mid")]
          loggedAt := 7
          data := some [("Alg", "R"),
            ("CA", "c Accepted publickey for a from b port 9 ssh2: R:k"),
            ("SSHKeySum", "k"), ("Serial", "1")] })
    ∧ List.lookup "userID"
        [("userID", "u"), ("loggedAs", "a"), ("pid", "99")] ≠ some UnknownUser :=
  ⟨rfl, rfl, rfl, rfl, by decide⟩

/-- C3 (amended): when the base login regex matches and either the match
length equals the line length, or the slice of the line after
`len(matches[0]) + 1` characters does not match the certificate regex,
the handler still writes a login event, with userID set to the unknown
sentinel and extra data exactly the algorithm and key-sum object (no
Serial, no CA). -/
theorem c3_unknown_user (logentry : List Char) (n m : String) (t : Nat)
    (pid : String) (caps : List (List Char)) (mlen : Nat)
    (hf : findSub loginToks logentry = some (caps, mlen))
    (hnb : logentry.length = mlen
        ∨ findSub certIDToks (logentry.drop (mlen + 1)) = none) :
    ∃ e, processAcceptPublicKeyEntry logentry n m t pid okSink = .ok (some e)
      ∧ List.lookup "userID" e.subjects = some UnknownUser
      ∧ e.data = some (extraDataWithoutCA (String.mk (caps.getD 3 []))
          (String.mk (caps.getD 4 []))) := by
  unfold processAcceptPublicKeyEntry
  rw [hf]
  dsimp only
  by_cases hl : logentry.length = mlen
  · rw [if_pos hl]
    exact ⟨_, rfl, rfl, rfl⟩
  · rcases hnb with hnb | hnb
    · exact absurd hnb hl
    · rw [if_neg hl, hnb]
      exact ⟨_, rfl, rfl, rfl⟩

/-- C3 witness: the amended statement at a whole-line match. -/
theorem c3_unknown_user_witness :
    ∃ e, processAcceptPublicKeyEntry
        ("Accepted publickey for a from b port 1 ssh2: R:k".toList)
        "node" "mid" 0 "9" okSink = .ok (some e)
      ∧ List.lookup "userID" e.subjects = some UnknownUser
      ∧ e.data = some (extraDataWithoutCA "R" "k") :=
  c3_unknown_user ("Accepted publickey for a from b port 1 ssh2: R:k".toList)
    "node" "mid" 0 "9" [['a'], ['b'], ['1'], ['R'], ['k']] 48 rfl (Or.inl rfl)

/-!
## Correlator lemmas
-/

/-- A successful association-list lookup is a membership. -/
theorem lookup_mem {α β : Type} [BEq α] [LawfulBEq α] :
    ∀ {s : List (α × β)} {k : α} {b : β}, List.lookup k s = some b → (k, b) ∈ s := by
  intro s
  induction s with
  | nil => intro k b h; simp [List.lookup] at h
  | cons hd tl ih =>
    intro k b h
    obtain ⟨k2, b2⟩ := hd
    rw [List.lookup] at h
    cases hkk : (k == k2) with
    | true =>
      rw [hkk] at h
      simp only [Option.some.injEq] at h
      have hk : k = k2 := eq_of_beq hkk
      subst hk; subst h
      exact List.mem_cons_self _ _
    | false =>
      rw [hkk] at h
      exact List.mem_cons_of_mem _ (ih h)

/-- Lookup of another key is unaffected by erasing a key. -/
theorem lookup_filter_ne {k k2 : String} (h : k2 ≠ k) :
    ∀ s : List (String × Binding),
      List.lookup k2 (s.filter (fun p => !(p.1 == k))) = List.lookup k2 s := by
  intro s
  induction s with
  | nil => rfl
  | cons hd tl ih =>
    obtain ⟨k3, b3⟩ := hd
    by_cases hk3 : k3 = k
    · subst hk3
      rw [List.filter_cons_of_neg (by simp)]
      rw [ih, List.lookup, show (k2 == k3) = false from beq_eq_false_iff_ne.mpr h]
    · rw [List.filter_cons_of_pos (by simpa using hk3)]
      rw [List.lookup, List.lookup]
      cases k2 == k3 <;> simp [ih]

/-- Lookup after setting the same key. -/
theorem lookup_setSession_self (s : List (String × Binding)) (k : String) (b : Binding) :
    List.lookup k (setSession s k b) = some b := by
  simp [setSession, List.lookup]

/-- Lookup after setting a different key. -/
theorem lookup_setSession_ne (s : List (String × Binding)) {k k2 : String} (b : Binding)
    (h : k2 ≠ k) : List.lookup k2 (setSession s k b) = List.lookup k2 s := by
  rw [setSession, List.lookup, show (k2 == k) = false from beq_eq_false_iff_ne.mpr h]
  exact lookup_filter_ne h s

/-- Membership after setting a key. -/
theorem mem_setSession {s : List (String × Binding)} {k k2 : String} {b b2 : Binding}
    (h : (k2, b2) ∈ setSession s k b) : (k2 = k ∧ b2 = b) ∨ (k2, b2) ∈ s := by
  rw [setSession] at h
  rcases List.mem_cons.mp h with h | h
  · left; exact ⟨congrArg Prod.fst h, congrArg Prod.snd h⟩
  · right; exact List.mem_of_mem_filter h

/-- Membership after removing a key. -/
theorem mem_removeSession {s : List (String × Binding)} {k k2 : String} {b2 : Binding}
    (h : (k2, b2) ∈ removeSession s k) : (k2, b2) ∈ s ∧ k2 ≠ k := by
  rw [removeSession] at h
  refine ⟨List.mem_of_mem_filter h, ?_⟩
  have hp := List.of_mem_filter h
  simpa using hp

/-- Under the uniqueness invariant, the pending-pid search returns the
session found by lookup. -/
theorem findPendingByPid_eq {S : String} {p : Nat} {buf : List AEvent} :
    ∀ {s : List (String × Binding)},
      List.lookup S s = some (.pending p buf) →
      (∀ k q bf, (k, Binding.pending q bf) ∈ s → q = p → k = S) →
      findPendingByPid s p = some (S, buf) := by
  intro s
  induction s with
  | nil => intro hlk; simp [List.lookup] at hlk
  | cons hd tl ih =>
    intro hlk honly
    obtain ⟨k, b⟩ := hd
    by_cases hk : S = k
    · subst hk
      rw [List.lookup, beq_self_eq_true] at hlk
      simp only [Option.some.injEq] at hlk
      subst hlk
      rw [findPendingByPid, if_pos rfl]
    · rw [List.lookup, show (S == k) = false from beq_eq_false_iff_ne.mpr hk] at hlk
      cases b with
      | pending q bf =>
        have hq : ¬(q = p) := fun hqp =>
          hk ((honly k q bf (List.mem_cons_self _ _) hqp).symm)
        rw [findPendingByPid, if_neg hq]
        exact ih hlk (fun k2 q2 bf2 hm => honly k2 q2 bf2 (List.mem_cons_of_mem _ hm))
      | bound l2 =>
        rw [findPendingByPid]
        exact ih hlk (fun k2 q2 bf2 hm => honly k2 q2 bf2 (List.mem_cons_of_mem _ hm))

/-- One unfolding of the correlator run. -/
theorem corrRun_cons (st : CorrState) (i : CorrInput) (rest : List CorrInput) :
    corrRun st (i :: rest) = (corrStep st i).2 ++ corrRun (corrStep st i).1 rest := rfl

/-- Step on an audit LOGIN record with no pending logins. -/
theorem corrStep_audit_loginRec (st : CorrState) (e : AEvent)
    (hrec : e.isLoginRec = true) (hpl : st.pendingLogins = []) :
    corrStep st (.audit e)
      = ({ st with sessions := setSession st.sessions e.session (.pending e.recPid [e]) },
         []) := by
  simp [corrStep, hrec, hpl, List.lookup]

/-- Step on a non-LOGIN, non-end record of a bound session. -/
theorem corrStep_audit_bound (st : CorrState) (e : AEvent) (l : Login)
    (hrec : e.isLoginRec = false) (hend : e.isEnd = false)
    (hlk : List.lookup e.session st.sessions = some (.bound l)) :
    corrStep st (.audit e) = (st, [enrich l e]) := by
  simp [corrStep, hrec, hend, hlk]

/-- Step on a session-end record of a bound session: forward and dispose. -/
theorem corrStep_audit_bound_end (st : CorrState) (e : AEvent) (l : Login)
    (hrec : e.isLoginRec = false) (hend : e.isEnd = true)
    (hlk : List.lookup e.session st.sessions = some (.bound l)) :
    corrStep st (.audit e)
      = ({ st with sessions := removeSession st.sessions e.session }, [enrich l e]) := by
  simp [corrStep, hrec, hend, hlk]

/-- Step on a non-LOGIN record of a pending session: buffer. -/
theorem corrStep_audit_pending (st : CorrState) (e : AEvent) (q : Nat) (buf : List AEvent)
    (hrec : e.isLoginRec = false)
    (hlk : List.lookup e.session st.sessions = some (.pending q buf)) :
    corrStep st (.audit e)
      = ({ st with
            sessions := setSession st.sessions e.session (.pending q (bufAppend buf e)) },
         []) := by
  simp [corrStep, hrec, hlk]

/-- Step on a non-LOGIN record of an unknown session: drop. -/
theorem corrStep_audit_none (st : CorrState) (e : AEvent)
    (hrec : e.isLoginRec = false)
    (hlk : List.lookup e.session st.sessions = none) :
    corrStep st (.audit e) = (st, []) := by
  simp [corrStep, hrec, hlk]

/-- An audit stream produces nothing from a state whose bindings are all
pending and whose pending-logins table is empty. -/
theorem corrRun_no_bound :
    ∀ (evs : List AEvent) (sess : List (String × Binding)),
      (∀ k b, (k, b) ∈ sess → ∀ l2, b ≠ Binding.bound l2) →
      corrRun ⟨sess, []⟩ (evs.map .audit) = [] := by
  intro evs
  induction evs with
  | nil => intro sess hnb; rfl
  | cons e evs ih =>
    intro sess hnb
    rw [List.map_cons, corrRun_cons]
    cases hrec : e.isLoginRec with
    | true =>
      rw [corrStep_audit_loginRec ⟨sess, []⟩ e hrec rfl]
      refine ih _ (fun k b hm l2 => ?_)
      rcases mem_setSession hm with ⟨-, hb⟩ | hm2
      · subst hb; intro hc; cases hc
      · exact hnb k b hm2 l2
    | false =>
      cases hlk : List.lookup e.session sess with
      | none =>
        rw [corrStep_audit_none ⟨sess, []⟩ e hrec hlk]
        exact ih sess hnb
      | some b =>
        cases b with
        | bound l2 => exact absurd rfl (hnb _ _ (lookup_mem hlk) l2)
        | pending q buf =>
          rw [corrStep_audit_pending ⟨sess, []⟩ e q buf hrec hlk]
          refine ih _ (fun k b hm l2 => ?_)
          rcases mem_setSession hm with ⟨-, hb⟩ | hm2
          · subst hb; intro hc; cases hc
          · exact hnb k b hm2 l2

/-- Events all off-session filter to nothing. -/
theorem filter_eq_nil_of_all_ne (S : String) :
    ∀ xs : List AEvent, xs.all (fun x => !(x.session == S)) = true →
      xs.filter (fun e => e.session == S) = [] := by
  intro xs
  induction xs with
  | nil => intro _; rfl
  | cons x xs ih =>
    intro h
    rw [List.all_cons, Bool.and_eq_true] at h
    have hx : (x.session == S) = false := by
      cases hxx : (x.session == S)
      · rfl
      · rw [hxx] at h; exact absurd h.1 (by decide)
    rw [List.filter_cons_of_neg (by rw [hx]; exact Bool.false_ne_true), ih h.2]

/-- Buffer append below capacity is a plain append. -/
theorem bufAppend_lt {buf : List AEvent} (e : AEvent) (h : buf.length < bufferCap) :
    bufAppend buf e = buf ++ [e] := by
  rw [bufAppend, if_pos h]

/-- Login-first run: with session `S` fully bound to `l`, no other bound
binding, and no further LOGIN record for `S`, the audit stream forwards
exactly the `S` events, enriched, in order; a session end disposes the
binding and nothing follows for `S`. -/
theorem corrRunA (l : Login) (S : String) :
    ∀ (body : List AEvent) (sess : List (String × Binding)),
      List.lookup S sess = some (.bound l) →
      (∀ k l2, (k, Binding.bound l2) ∈ sess → k = S ∧ l2 = l) →
      (∀ e ∈ body, e.isLoginRec = true → (e.session == S) = false) →
      noSEventAfterEnd S body = true →
      corrRun ⟨sess, []⟩ (body.map .audit)
        = (body.filter (fun e => e.session == S)).map (enrich l) := by
  intro body
  induction body with
  | nil => intro sess _ _ _ _; rfl
  | cons e body ih =>
    intro sess hlk hbound hlogin hend
    rw [noSEventAfterEnd, Bool.and_eq_true] at hend
    obtain ⟨hend1, hend2⟩ := hend
    rw [List.map_cons, corrRun_cons]
    cases hs : (e.session == S) with
    | true =>
      have hS : e.session = S := eq_of_beq hs
      have hrec : e.isLoginRec = false := by
        cases hr : e.isLoginRec
        · rfl
        · rw [hlogin e (List.mem_cons_self _ _) hr] at hs; cases hs
      have hlke : List.lookup e.session sess = some (.bound l) := by rw [hS]; exact hlk
      cases hendE : e.isEnd with
      | true =>
        rw [corrStep_audit_bound_end ⟨sess, []⟩ e l hrec hendE hlke]
        have hall : body.all (fun x => !(x.session == S)) = true := by
          rw [if_pos (by rw [hs, hendE]; rfl)] at hend1
          exact hend1
        rw [corrRun_no_bound body _ (fun k b hm l2 => ?anb)]
        case anb =>
          intro hb
          subst hb
          obtain ⟨hm2, hneq⟩ := mem_removeSession hm
          exact hneq (by rw [hS]; exact (hbound k l2 hm2).1)
        rw [@List.filter_cons_of_pos _ (fun x => x.session == S) e body hs,
          filter_eq_nil_of_all_ne S body hall]
        rfl
      | false =>
        rw [corrStep_audit_bound ⟨sess, []⟩ e l hrec hendE hlke]
        rw [@List.filter_cons_of_pos _ (fun x => x.session == S) e body hs, List.map_cons]
        have hend2b : noSEventAfterEnd S body = true := hend2
        rw [ih sess hlk hbound
          (fun x hx hr => hlogin x (List.mem_cons_of_mem _ hx) hr) hend2b]
        rfl
    | false =>
      have hne : e.session ≠ S := by
        intro hc; rw [hc, beq_self_eq_true] at hs; cases hs
      have hneS : S ≠ e.session := fun hc => hne hc.symm
      rw [@List.filter_cons_of_neg _ (fun x => x.session == S) e body
        (fun hc => by
          have hc2 : (e.session == S) = true := hc
          rw [hs] at hc2; exact Bool.false_ne_true hc2)]
      cases hrec : e.isLoginRec with
      | true =>
        rw [corrStep_audit_loginRec ⟨sess, []⟩ e hrec rfl]
        refine ih _ ?_ ?_ (fun x hx hr => hlogin x (List.mem_cons_of_mem _ hx) hr) hend2
        · rw [lookup_setSession_ne sess _ hneS]; exact hlk
        · intro k l2 hm
          rcases mem_setSession hm with ⟨-, hb⟩ | hm2
          · cases hb
          · exact hbound k l2 hm2
      | false =>
        cases hlke : List.lookup e.session sess with
        | none =>
          rw [corrStep_audit_none ⟨sess, []⟩ e hrec hlke]
          exact ih sess hlk hbound
            (fun x hx hr => hlogin x (List.mem_cons_of_mem _ hx) hr) hend2
        | some b =>
          cases b with
          | bound l2 =>
            exact absurd (hbound _ _ (lookup_mem hlke)).1 hne
          | pending q buf =>
            rw [corrStep_audit_pending ⟨sess, []⟩ e q buf hrec hlke]
            refine ih _ ?_ ?_ (fun x hx hr => hlogin x (List.mem_cons_of_mem _ hx) hr) hend2
            · rw [lookup_setSession_ne sess _ hneS]; exact hlk
            · intro k l2 hm
              rcases mem_setSession hm with ⟨-, hb⟩ | hm2
              · cases hb
              · exact hbound k l2 hm2

/-- Audit-first run: with session `S` pending for `l.pid` holding `buf`,
no bound bindings, no other binding with `l.pid`, and no further LOGIN
record for `S` or `l.pid`, the audit stream buffers every `S` event in
order, and the trailing login drains the buffer: the output is the
enrichment of `buf` followed by the `S` events. -/
theorem corrRunB (l : Login) (S : String) :
    ∀ (body : List AEvent) (sess : List (String × Binding)) (buf : List AEvent),
      List.lookup S sess = some (.pending l.pid buf) →
      (∀ k b, (k, b) ∈ sess → ∀ l2, b ≠ Binding.bound l2) →
      (∀ k q bf, (k, Binding.pending q bf) ∈ sess → q = l.pid → k = S) →
      (∀ e ∈ body, e.isLoginRec = true → (e.session == S) = false ∧ e.recPid ≠ l.pid) →
      buf.length + (body.filter (fun e => e.session == S)).length ≤ bufferCap →
      corrRun ⟨sess, []⟩ (body.map .audit ++ [.login l])
        = (buf ++ body.filter (fun e => e.session == S)).map (enrich l) := by
  intro body
  induction body with
  | nil =>
    intro sess buf hlk hnb honly _ _
    rw [List.map_nil, List.nil_append, corrRun_cons]
    have hfind : findPendingByPid sess l.pid = some (S, buf) :=
      findPendingByPid_eq hlk honly
    have hstep : corrStep ⟨sess, []⟩ (.login l)
        = (⟨setSession sess S (.bound l), []⟩, buf.map (enrich l)) := by
      simp [corrStep, hfind]
    rw [hstep]
    simp [corrRun]
  | cons e body ih =>
    intro sess buf hlk hnb honly hbody hcap
    rw [List.map_cons, List.cons_append, corrRun_cons]
    cases hs : (e.session == S) with
    | true =>
      have hS : e.session = S := eq_of_beq hs
      have hrec : e.isLoginRec = false := by
        cases hr : e.isLoginRec
        · rfl
        · rw [(hbody e (List.mem_cons_self _ _) hr).1] at hs; cases hs
      have hlke : List.lookup e.session sess = some (.pending l.pid buf) := by
        rw [hS]; exact hlk
      rw [corrStep_audit_pending ⟨sess, []⟩ e l.pid buf hrec hlke]
      have hfe : (e :: body).filter (fun x => x.session == S)
          = e :: body.filter (fun x => x.session == S) :=
        @List.filter_cons_of_pos _ (fun x => x.session == S) e body hs
      have hlt : buf.length < bufferCap := by
        rw [hfe, List.length_cons] at hcap
        omega
      have hba := bufAppend_lt e hlt
      rw [hS, hba]
      have hcap2 : (buf ++ [e]).length
          + (body.filter (fun x => x.session == S)).length ≤ bufferCap := by
        rw [List.length_append, List.length_singleton]
        rw [hfe, List.length_cons] at hcap
        omega
      rw [ih (setSession sess S (.pending l.pid (buf ++ [e]))) (buf ++ [e])
        (lookup_setSession_self sess S _)
        (fun k b hm l2 => by
          rcases mem_setSession hm with ⟨-, hb⟩ | hm2
          · subst hb; intro hc; cases hc
          · exact hnb k b hm2 l2)
        (fun k q bf hm hq => by
          rcases mem_setSession hm with ⟨hk, -⟩ | hm2
          · exact hk
          · exact honly k q bf hm2 hq)
        (fun x hx hr => hbody x (List.mem_cons_of_mem _ hx) hr)
        hcap2]
      rw [hfe]
      simp
    | false =>
      have hne : e.session ≠ S := by
        intro hc; rw [hc, beq_self_eq_true] at hs; cases hs
      have hneS : S ≠ e.session := fun hc => hne hc.symm
      have hfe : (e :: body).filter (fun x => x.session == S)
          = body.filter (fun x => x.session == S) :=
        @List.filter_cons_of_neg _ (fun x => x.session == S) e body
          (fun hc => by
            have hc2 : (e.session == S) = true := hc
            rw [hs] at hc2; exact Bool.false_ne_true hc2)
      rw [hfe] at hcap ⊢
      cases hrec : e.isLoginRec with
      | true =>
        have hrecpid := (hbody e (List.mem_cons_self _ _) hrec).2
        rw [corrStep_audit_loginRec ⟨sess, []⟩ e hrec rfl]
        refine ih _ buf ?_ ?_ ?_
          (fun x hx hr => hbody x (List.mem_cons_of_mem _ hx) hr) hcap
        · rw [lookup_setSession_ne sess _ hneS]; exact hlk
        · intro k b hm l2
          rcases mem_setSession hm with ⟨-, hb⟩ | hm2
          · subst hb; intro hc; cases hc
          · exact hnb k b hm2 l2
        · intro k q bf hm hq
          rcases mem_setSession hm with ⟨-, hb⟩ | hm2
          · exact absurd (by rw [← (Binding.pending.injEq _ _ _ _).mp hb |>.1]; exact hq)
              hrecpid
          · exact honly k q bf hm2 hq
      | false =>
        cases hlke : List.lookup e.session sess with
        | none =>
          rw [corrStep_audit_none ⟨sess, []⟩ e hrec hlke]
          exact ih sess buf hlk hnb honly
            (fun x hx hr => hbody x (List.mem_cons_of_mem _ hx) hr) hcap
        | some b =>
          cases b with
          | bound l2 => exact absurd rfl (hnb _ _ (lookup_mem hlke) l2)
          | pending q buf2 =>
            rw [corrStep_audit_pending ⟨sess, []⟩ e q buf2 hrec hlke]
            refine ih _ buf ?_ ?_ ?_
              (fun x hx hr => hbody x (List.mem_cons_of_mem _ hx) hr) hcap
            · rw [lookup_setSession_ne sess _ hneS]; exact hlk
            · intro k b hm l2
              rcases mem_setSession hm with ⟨-, hb⟩ | hm2
              · subst hb; intro hc; cases hc
              · exact hnb k b hm2 l2
            · intro k q2 bf hm hq
              rcases mem_setSession hm with ⟨hk, hb⟩ | hm2
              · exfalso
                have hq2 : q2 = q := ((Binding.pending.injEq _ _ _ _).mp hb).1
                have := honly e.session q buf2 (lookup_mem hlke) (by rw [← hq2]; exact hq)
                exact hne this
              · exact honly k q2 bf hm2 hq

/-- C8: delivering the Remote User Login after the audit stream
(Scenario B) produces exactly the output stream of delivering it before
(Scenario A).  The stream is `LOGIN record for session S carrying the
login's pid` followed by `body`; `body` contains no further LOGIN record
for `S` or for the login's pid, no `S` event follows an `S` session end,
and the `S` events fit the pre-binding buffer.  Both orders produce the
enrichment of the LOGIN record followed by the `S` events of `body` in
order, and when the last `S` event exists (the disposed-credentials
record in the good corpus) it is the last output event. -/
theorem c8_correlator_order_equiv (l : Login) (e0 : AEvent) (body : List AEvent)
    (h0rec : e0.isLoginRec = true) (h0pid : e0.recPid = l.pid)
    (hbody : ∀ e ∈ body, e.isLoginRec = true →
      (e.session == e0.session) = false ∧ e.recPid ≠ l.pid)
    (hend : noSEventAfterEnd e0.session body = true)
    (hcap : 1 + (body.filter (fun e => e.session == e0.session)).length ≤ bufferCap) :
    runCorrelator (.login l :: .audit e0 :: body.map .audit)
        = runCorrelator ((.audit e0 :: body.map .audit) ++ [.login l])
    ∧ runCorrelator (.login l :: .audit e0 :: body.map .audit)
        = enrich l e0 :: (body.filter (fun e => e.session == e0.session)).map (enrich l)
    ∧ (∀ eL, (body.filter (fun e => e.session == e0.session)).getLast? = some eL →
        (runCorrelator (.login l :: .audit e0 :: body.map .audit)).getLast?
          = some (enrich l eL)) := by
  have stepA1 : corrStep ⟨[], []⟩ (.login l) = (⟨[], [(l.pid, l)]⟩, []) := rfl
  have hlkp : List.lookup e0.recPid [(l.pid, l)] = some l := by
    rw [h0pid]; simp [List.lookup]
  have stepA2 : corrStep ⟨[], [(l.pid, l)]⟩ (.audit e0)
      = (⟨[(e0.session, .bound l)], []⟩, [enrich l e0]) := by
    simp [corrStep, h0rec, hlkp, setSession, h0pid]
  have hA : runCorrelator (.login l :: .audit e0 :: body.map .audit)
      = enrich l e0 :: (body.filter (fun e => e.session == e0.session)).map (enrich l) := by
    rw [runCorrelator, corrRun_cons, stepA1]
    dsimp only
    rw [corrRun_cons, stepA2]
    dsimp only
    rw [corrRunA l e0.session body [(e0.session, .bound l)]
      (by simp [List.lookup])
      (by
        intro k l2 hm
        have := List.mem_singleton.mp hm
        exact ⟨congrArg Prod.fst this,
          by
            have h2 := congrArg Prod.snd this
            exact (Binding.bound.injEq _ _).mp h2⟩)
      (fun e he hr => (hbody e he hr).1) hend]
    rfl
  have stepB1 : corrStep ⟨[], []⟩ (.audit e0)
      = (⟨[(e0.session, .pending l.pid [e0])], []⟩, []) := by
    simp [corrStep, h0rec, List.lookup, setSession, h0pid]
  have hB : runCorrelator ((.audit e0 :: body.map .audit) ++ [.login l])
      = enrich l e0 :: (body.filter (fun e => e.session == e0.session)).map (enrich l) := by
    rw [runCorrelator, List.cons_append, corrRun_cons, stepB1]
    dsimp only
    rw [corrRunB l e0.session body [(e0.session, .pending l.pid [e0])] [e0]
      (by simp [List.lookup])
      (by
        intro k b hm l2
        have := List.mem_singleton.mp hm
        have h2 : b = Binding.pending l.pid [e0] := congrArg Prod.snd this
        rw [h2]
        intro hc; cases hc)
      (by
        intro k q bf hm hq
        have := List.mem_singleton.mp hm
        exact congrArg Prod.fst this)
      hbody
      (by simpa using hcap)]
    rfl
  refine ⟨hA.trans hB.symm, hA, ?_⟩
  intro eL hL
  rw [hA]
  cases hfb : body.filter (fun e => e.session == e0.session) with
  | nil => rw [hfb] at hL; cases hL
  | cons y ys =>
    rw [hfb] at hL
    rw [List.map_cons, List.getLast?_cons_cons, ← List.map_cons, List.getLast?_map, hL]
    rfl

/-- C8 witness: login-first and audit-first orders agree on a concrete
stream for the login pid 25007 / userID foo@bar.com: LOGIN record of
session 4, one command event, the disposed-credentials end event, and an
unrelated-session LOGIN record. -/
theorem c8_correlator_order_equiv_witness :
    runCorrelator (.login ⟨25007, "foo@bar.com", "user"⟩
        :: .audit ⟨"4", true, 25007, false, "logged-in", "failed", 499⟩
        :: ([⟨"4", false, 0, false, "ran-command", "succeeded", 499⟩,
             ⟨"4", false, 0, true, "disposed-credentials", "succeeded", 499⟩,
             ⟨"7", true, 999, false, "logged-in", "succeeded", 500⟩].map CorrInput.audit))
      = runCorrelator ((.audit ⟨"4", true, 25007, false, "logged-in", "failed", 499⟩
          :: ([⟨"4", false, 0, false, "ran-command", "succeeded", 499⟩,
               ⟨"4", false, 0, true, "disposed-credentials", "succeeded", 499⟩,
               ⟨"7", true, 999, false, "logged-in", "succeeded", 500⟩].map CorrInput.audit))
          ++ [.login ⟨25007, "foo@bar.com", "user"⟩]) :=
  (c8_correlator_order_equiv ⟨25007, "foo@bar.com", "user"⟩
    ⟨"4", true, 25007, false, "logged-in", "failed", 499⟩
    [⟨"4", false, 0, false, "ran-command", "succeeded", 499⟩,
     ⟨"4", false, 0, true, "disposed-credentials", "succeeded", 499⟩,
     ⟨"7", true, 999, false, "logged-in", "succeeded", 500⟩]
    rfl rfl (by decide) (by decide) (by decide)).1
